import Mathlib

/-!
Shallow embedding of the revolut_transaction_converter repository
(src/revolut_utils.py, src/checking_transaction_converter.py,
src/savings_transaction_converter.py) in Lean 4.

Modelling conventions:
* Python floats are modelled as exact rationals (`ℚ`); `round(x, 2)` is
  modelled as decimal rounding half-to-even at two decimal places.
* Python dicts are modelled as association lists looked up with
  `List.lookup`; insertion produces entries in iteration order and the
  builders below never insert the same key twice for well-formed inputs.
* Python exceptions are modelled with `Except PyError`; the distinct
  exception classes used by the code become constructors of `PyError`.
* Filesystem contents are passed explicitly: a directory listing is a list
  of `(name, isDir)` pairs, and the output tree scanned by
  `get_latest_balance_history_value` is a list of folder names paired with
  the (optional) parsed CSV found at `folder/filename`.
* `datetime.strptime(s, "%Y-%m-%d")` is modelled by `parse_date`, which
  follows CPython's `_strptime` regexes: exactly four year digits, one or
  two month digits in 1..12, one or two day digits valid for the month
  (with leap years), full match only.  Chronological comparison of parsed
  dates is via `dateKey`, a strictly monotone encoding of (y, m, d).
-/

/-- Exception classes raised by the code: ConfigError (a RuntimeError
subclass defined in revolut_utils.py), FileNotFoundError, RuntimeError
and ValueError. -/
inductive PyError where
  | configError : String → PyError
  | notFound : String → PyError
  | runtimeError : String → PyError
  | valueError : String → PyError
deriving Repr, DecidableEq

/-- Numeric value of a list of decimal digit characters. -/
def digitsVal (cs : List Char) : Nat :=
  cs.foldl (fun a c => a * 10 + (c.toNat - 48)) 0

/-- All characters are decimal digits. -/
def allDigits (cs : List Char) : Bool :=
  cs.all (fun c => c.isDigit)

/-- Gregorian leap-year rule used by Python's datetime. -/
def isLeapYear (y : Nat) : Bool :=
  (y % 4 == 0 && y % 100 != 0) || y % 400 == 0

/-- Number of days in a month, as validated by datetime.date. -/
def daysInMonth (y m : Nat) : Nat :=
  if m = 2 then (if isLeapYear y then 29 else 28)
  else if m = 4 ∨ m = 6 ∨ m = 9 ∨ m = 11 then 30
  else 31

/-- Split a character list on a separator character; mirrors
String.splitOn for a one-character separator (which is how the code uses
it), but is structurally recursive so that concrete instances reduce. -/
def splitOnChar (sep : Char) (cs : List Char) : List (List Char) :=
  cs.foldr
    (fun c acc =>
      if c = sep then [] :: acc
      else
        match acc with
        | g :: gs => (c :: g) :: gs
        | [] => [[c]])
    [[]]

/-- Model of datetime.strptime(s, "%Y-%m-%d"): split on the literal
dashes, require exactly four year digits, one or two month digits and one
or two day digits, then validate the calendar ranges exactly as
datetime.date does.  Returns the parsed (year, month, day). -/
def parse_date (s : String) : Option (Nat × Nat × Nat) :=
  match splitOnChar '-' s.toList with
  | [yc, mc, dc] =>
    if yc.length = 4 ∧ allDigits yc ∧
       1 ≤ mc.length ∧ mc.length ≤ 2 ∧ allDigits mc ∧
       1 ≤ dc.length ∧ dc.length ≤ 2 ∧ allDigits dc then
      let y := digitsVal yc
      let m := digitsVal mc
      let d := digitsVal dc
      if 1 ≤ y ∧ 1 ≤ m ∧ m ≤ 12 ∧ 1 ≤ d ∧ d ≤ daysInMonth y m then
        some (y, m, d)
      else none
    else none
  | _ => none

/-- Strictly monotone encoding of a parsed date; comparing keys is
chronological comparison of the underlying datetimes (months are ≤ 12 < 13
and days are ≤ 31 < 32, so the encoding is order-isomorphic to
lexicographic comparison of (y, m, d)). -/
def dateKey : Nat × Nat × Nat → Nat :=
  fun t => (t.1 * 13 + t.2.1) * 32 + t.2.2

/-- Model of Python's max(items, key=fst) over a nonempty list, fed as a
first element plus the rest: scans left to right and replaces the current
best only on a strictly larger key, so the first of equal maxima wins,
as in CPython. -/
def maxByKey {α : Type} : (Nat × α) → List (Nat × α) → (Nat × α)
  | best, [] => best
  | best, x :: xs => maxByKey (if best.1 < x.1 then x else best) xs

/-- Candidates collected by get_latest_dated_folder: sub-directories
whose name parses as a date, keyed by that date. -/
def dirCandidates (children : List (String × Bool)) : List (Nat × String) :=
  children.filterMap
    (fun c => if c.2 then (parse_date c.1).map (fun d => (dateKey d, c.1)) else none)

/-- Model of get_latest_dated_folder: fail with FileNotFoundError if the
root is missing; keep sub-directories whose name parses as a date; fail
with FileNotFoundError if none; otherwise return the name with the
latest date.  The directory listing is a list of (name, isDir) pairs. -/
def get_latest_dated_folder (rootExists : Bool) (children : List (String × Bool)) :
    Except PyError String :=
  if rootExists then
    match dirCandidates children with
    | [] => .error (.notFound "No dated folders found")
    | c :: cs => .ok (maxByKey c cs).2
  else .error (.notFound "Missing directory")

/-- Model of get_run_date: the environment override is `Option String`
(None when unset); a set-but-empty override is falsy in Python and falls
through to folder scanning.  A non-empty override must parse as
YYYY-MM-DD (ConfigError otherwise) and is returned verbatim. -/
def get_run_date (override : Option String) (rootExists : Bool)
    (children : List (String × Bool)) : Except PyError String :=
  match override with
  | some o =>
    if o ≠ "" then
      match parse_date o with
      | some _ => .ok o
      | none => .error (.configError "RUN_DATE must be in %Y-%m-%d format")
    else get_latest_dated_folder rootExists children
  | none => get_latest_dated_folder rootExists children

/-- Lexicographic comparison of character lists by code point, the order
Python uses to compare and sort strings. -/
def charListLe : List Char → List Char → Bool
  | [], _ => true
  | _ :: _, [] => false
  | a :: as, b :: bs => if a = b then charListLe as bs else decide (a < b)

/-- String order used where the code sorts or compares strings
(sorted() on currency codes, sort_values on date strings). -/
def strLe (a b : String) : Bool :=
  charListLe a.toList b.toList

/-- Normalisation of the requested currency list performed by
build_usd_rates: the Python set comprehension drops falsy (empty) codes
and deduplicates, and sorted() orders the result. -/
def normalizeCurrencies (currencies : List String) : List String :=
  List.insertionSort (fun a b : String => strLe a b = true)
    (currencies.filter (fun c => c ≠ "")).dedup

/-- Multiplier the rate builders produce for one currency on one day of
quotes: 1.0 for the target currency, 1/quote for a present non-zero quote
under key source ++ currency, and nothing at all otherwise (`if rate:` is
Python truthiness, so a zero or missing quote inserts no entry). -/
def rateValueFor (source target : String) (dq : List (String × ℚ)) (c : String) : Option ℚ :=
  if c = target then some 1
  else
    match List.lookup (source ++ c) dq with
    | some r => if r ≠ 0 then some (1 / r) else none
    | none => none

/-- Entries the inner loop of build_usd_rates inserts for one date of
quotes, over the normalised currency list. -/
def rateEntriesFor (source target : String) (normalized : List String)
    (d : String) (dq : List (String × ℚ)) : List ((String × String) × ℚ) :=
  normalized.filterMap (fun c => (rateValueFor source target dq c).map (fun v => ((d, c), v)))

/-- Model of build_usd_rates: fails with RuntimeError when the API source
currency differs from the target (reporting) currency, else builds the
(date, currency) → multiplier dict. -/
def build_usd_rates (quotes : List (String × List (String × ℚ)))
    (source : String) (currencies : List String) (target : String) :
    Except PyError (List ((String × String) × ℚ)) :=
  if source ≠ target then
    .error (.runtimeError "Unsupported API source currency; expected target")
  else
    .ok (quotes.flatMap (fun p => rateEntriesFor source target (normalizeCurrencies currencies) p.1 p.2))

/-- Model of build_usd_rate_series: single-currency variant; same source
currency guard and the same zero/absence handling per date. -/
def build_usd_rate_series (quotes : List (String × List (String × ℚ)))
    (source : String) (currency : String) (target : String) :
    Except PyError (List (String × ℚ)) :=
  if source ≠ target then
    .error (.runtimeError "Unsupported API source currency; expected target")
  else
    .ok (quotes.filterMap (fun p =>
      (rateValueFor source target p.2 currency).map (fun v => (p.1, v))))

/-- Rounding of a rational to an integer, half to even, as Python's
round() does (modelled over exact rationals rather than binary floats). -/
def roundHalfEven (q : ℚ) : ℤ :=
  let n := ⌊q⌋
  let f := q - n
  if f < 1 / 2 then n
  else if 1 / 2 < f then n + 1
  else if n % 2 = 0 then n
  else n + 1

/-- Model of round(x, 2): round half to even at two decimal places. -/
def round2 (q : ℚ) : ℚ := (roundHalfEven (q * 100) : ℚ) / 100

/-- Values the money parser distinguishes: Python None, a float NaN, or a
string cell (the savings CSV's money columns are read as strings/NaN). -/
inductive PyValue where
  | none : PyValue
  | nanFloat : PyValue
  | str : String → PyValue
deriving Repr, DecidableEq

/-- Parse an unsigned decimal literal (digits with an optional fractional
part) the way Python's float() accepts "12", "12.", ".5", "12.5". -/
def parseUnsigned (cs : List Char) : Option ℚ :=
  match splitOnChar '.' cs with
  | [ic] =>
    if ic ≠ [] ∧ allDigits ic then some (digitsVal ic) else none
  | [ic, fc] =>
    if allDigits ic ∧ allDigits fc ∧ (ic ≠ [] ∨ fc ≠ []) then
      some ((digitsVal ic : ℚ) + (digitsVal fc : ℚ) / (10 ^ fc.length))
    else none
  | _ => none

/-- Parse a signed decimal literal, modelling Python float() on the plain
decimal strings produced by stripping money formatting (scientific
notation and special values are outside the modelled domain). -/
def parseDecimal (cs : List Char) : Option ℚ :=
  match cs with
  | '-' :: rest => (parseUnsigned rest).map (fun q => -q)
  | '+' :: rest => parseUnsigned rest
  | _ => parseUnsigned cs

/-- Remove every occurrence of a nonempty pattern, scanning left to
right without overlap, as str.replace(pat, "") does; fuelled so that the
recursion is structural (the fuel is the list length, always enough
since every step consumes at least one character). -/
def removeOccsAux (pat : List Char) : Nat → List Char → List Char
  | _, [] => []
  | 0, l => l
  | fuel + 1, c :: rest =>
    if pat ≠ [] ∧ pat.isPrefixOf (c :: rest) then
      removeOccsAux pat fuel (List.drop (pat.length - 1) rest)
    else c :: removeOccsAux pat fuel rest

/-- Model of s.replace(pat, "") for the nonempty patterns the code uses
(the currency symbol and ","). -/
def removeOccs (pat cs : List Char) : List Char :=
  removeOccsAux pat cs.length cs

/-- Model of str.strip(): drop leading and trailing whitespace. -/
def stripChars (cs : List Char) : List Char :=
  ((cs.dropWhile Char.isWhitespace).reverse.dropWhile Char.isWhitespace).reverse

/-- Model of parse_money_amount: None and float NaN parse to 0.0; a
string is stripped of the currency symbol, comma separators and
surrounding whitespace, an empty remainder parses to 0.0, and anything
else goes through float() (ValueError when not a decimal literal). -/
def parse_money_amount (value : PyValue) (symbol : String) : Except PyError ℚ :=
  match value with
  | .none => .ok 0
  | .nanFloat => .ok 0
  | .str s =>
    let text := stripChars (removeOccs [','] (removeOccs symbol.toList s.toList))
    if text = [] then .ok 0
    else
      match parseDecimal text with
      | some q => .ok q
      | Option.none => .error (.valueError "could not convert string to float")

/-- Per-row amount computed by the savings converter:
Amount = parse(Money in, "£") − parse(Money out, "£"). -/
def savings_amount (moneyIn moneyOut : PyValue) : Except PyError ℚ := do
  let a ← parse_money_amount moneyIn "£"
  let b ← parse_money_amount moneyOut "£"
  return a - b

/-- Canonical Monarch output row (the free-text Category/Notes/Tags
columns are constant empty strings and are omitted). -/
structure MonarchRow where
  date : String
  merchant : String
  account : String
  amount : ℚ
  originalAmount : ℚ
deriving Repr, DecidableEq

/-- Model of monarch_row: description feeds both Merchant and Original
Statement, so a single merchant field suffices. -/
def monarch_row (date_str description account : String)
    (amount_usd amount_original : ℚ) : MonarchRow :=
  ⟨date_str, description, account, amount_usd, amount_original⟩

/-- Surviving checking-export row after state filtering and date parsing
(State in COMPLETED/PENDING, Started Date parsed). -/
structure CheckingRow where
  date : String
  description : String
  amount : ℚ
  currency : String
deriving Repr, DecidableEq

/-- Surviving savings-export row after date parsing and money parsing. -/
structure SavingsRow where
  date : String
  description : String
  amount : ℚ
deriving Repr, DecidableEq

/-- Row loop of checking_transaction_converter.main: a missing
(date, currency) rate raises ValueError, aborting the whole run with no
output; otherwise each row yields a Monarch row with the USD amount
rounded to two decimals. -/
def convert_checking_rows (rates : List ((String × String) × ℚ)) :
    List CheckingRow → Except PyError (List MonarchRow)
  | [] => .ok []
  | r :: rest =>
    match List.lookup (r.date, r.currency) rates with
    | Option.none => .error (.valueError "No exchange rate found")
    | some rate =>
      (convert_checking_rows rates rest).map
        (fun out => monarch_row r.date r.description "Revolut Checking"
          (round2 (r.amount * rate)) r.amount :: out)

/-- Row loop of savings_transaction_converter.main: a missing rate for
the row's date (currency fixed to "GBP") skips the row with a warning and
continues; otherwise the row is converted like the checking rows. -/
def convert_savings_rows (rates : List ((String × String) × ℚ)) :
    List SavingsRow → List MonarchRow
  | [] => []
  | r :: rest =>
    match List.lookup (r.date, "GBP") rates with
    | Option.none => convert_savings_rows rates rest
    | some rate =>
      monarch_row r.date r.description "Revolut Savings"
        (round2 (r.amount * rate)) r.amount :: convert_savings_rows rates rest

/-- AccountConfig dataclass from revolut_utils.py. -/
structure AccountConfig where
  name : String
  currency : String
  starting_balance : ℚ
deriving Repr, DecidableEq

/-- Canonical transaction as consumed by build_balance_history: the
DataFrame columns Account, Date, Amount and Original Amount.  Dates are
abstracted as naturals ordered chronologically (the source holds parsed
datetimes and only compares, groups and formats them). -/
structure Txn where
  account : String
  date : Nat
  amount : ℚ
  originalAmount : ℚ
deriving Repr, DecidableEq

/-- One output row of build_balance_history (columns Date, Balance,
Original Balance, Account); Balance is optional because a missing
exchange rate leaves it NaN for that day. -/
structure BalanceOut where
  date : Nat
  balance : Option ℚ
  originalBalance : ℚ
  account : String
deriving Repr, DecidableEq

/-- Sum of column f over the rows of a given date: the per-day sums that
groupby("Date")[col].sum() produces. -/
def sumAt (f : Txn → ℚ) (l : List Txn) (d : Nat) : ℚ :=
  ((l.filter (fun t => t.date = d)).map f).sum

/-- Distinct transaction dates in ascending order: the group keys after
groupby + sort_values("Date"). -/
def sortedUniqueDates (l : List Txn) : List Nat :=
  List.insertionSort (fun a b : Nat => a ≤ b) (l.map (fun t => t.date)).dedup

/-- Per-day (date, summed column) pairs in ascending date order. -/
def dailyTotals (f : Txn → ℚ) (l : List Txn) : List (Nat × ℚ) :=
  (sortedUniqueDates l).map (fun d => (d, sumAt f l d))

/-- Running cumulative sums of a list of amounts seeded with a starting
balance (the k-th output is start plus the sum of the first k+1 inputs). -/
def cumsumFrom (start : ℚ) : List ℚ → List ℚ
  | [] => []
  | x :: xs => (start + x) :: cumsumFrom (start + x) xs

/-- Running cumulative sums seeded with a starting balance, paired with
the dates: models col.cumsum() + starting_balance. -/
def runningBalances (start : ℚ) : List (Nat × ℚ) → List (Nat × ℚ)
  | [] => []
  | (d, x) :: rest => (d, start + x) :: runningBalances (start + x) rest

/-- Rows build_balance_history emits for one account with a nonempty
transaction selection (the body of the per-account loop): the
reporting-currency branch sums Amount and uses the cumulative balance for
both columns; the foreign branch sums Original Amount and converts each
day's cumulative original balance with rate_lookup, rounding to two
decimals, leaving Balance missing when no rate is returned. -/
def accountRows (a : AccountConfig) (txns : List Txn)
    (rate_lookup : Nat → String → Option ℚ) (target : String) : List BalanceOut :=
  let acc := txns.filter (fun t => t.account = a.name)
  if a.currency = target then
    (runningBalances a.starting_balance (dailyTotals (fun t => t.amount) acc)).map
      (fun p => ⟨p.1, some p.2, p.2, a.name⟩)
  else
    (runningBalances a.starting_balance (dailyTotals (fun t => t.originalAmount) acc)).map
      (fun p => ⟨p.1, (rate_lookup p.1 a.currency).map (fun r => round2 (p.2 * r)), p.2, a.name⟩)

/-- Final sort key of build_balance_history: by (Account, Date). -/
def rowLe (r s : BalanceOut) : Prop :=
  r.account < s.account ∨ (r.account = s.account ∧ r.date ≤ s.date)

instance : DecidableRel rowLe := fun r s => by
  unfold rowLe
  infer_instance

/-- Model of build_balance_history: per account, skip it when no
transaction matches, else emit its rows; RuntimeError when every account
was skipped; concatenate and sort by (Account, Date). -/
def build_balance_history (txns : List Txn) (accounts : List AccountConfig)
    (rate_lookup : Nat → String → Option ℚ) (target : String) :
    Except PyError (List BalanceOut) :=
  let frames := accounts.filterMap (fun a =>
    if txns.filter (fun t => t.account = a.name) = [] then Option.none
    else some (accountRows a txns rate_lookup target))
  if frames = [] then .error (.runtimeError "No balances generated for requested accounts.")
  else .ok (List.insertionSort rowLe frames.flatten)

/-- CSV cell as read by pandas: a string, a numeric value, or missing
(NaN).  Numeric columns of the balance-history files are `num` cells. -/
inductive Cell where
  | str : String → Cell
  | num : ℚ → Cell
  | na : Cell
deriving Repr, DecidableEq

/-- CSV file: column names plus rows given as column-name/cell pairs. -/
structure Csv where
  columns : List String
  rows : List (List (String × Cell))
deriving Repr, DecidableEq

/-- Cell of a row under a column name (missing when absent). -/
def getCell (row : List (String × Cell)) (c : String) : Cell :=
  (List.lookup c row).getD Cell.na

/-- Numeric view of a cell; dropna over a numeric column keeps exactly
the `num` cells. -/
def numCell : Cell → Option ℚ
  | .num q => some q
  | _ => Option.none

/-- String sort key used when sorting rows on the Date column (the
balance-history Date column holds YYYY-MM-DD strings, whose lexicographic
order is chronological). -/
def dateCellKey (row : List (String × Cell)) : String :=
  match getCell row "Date" with
  | .str s => s
  | _ => ""

/-- Row order for sort_values("Date"). -/
def dateRowLe (r s : List (String × Cell)) : Prop :=
  strLe (dateCellKey r) (dateCellKey s) = true

instance : DecidableRel dateRowLe := fun r s => by
  unfold dateRowLe
  infer_instance

/-- Candidate files of get_latest_balance_history_value: folders of the
output root that contain the requested file and whose name parses as a
date, keyed by that date. -/
def balanceCandidates (folders : List (String × Option Csv)) : List (Nat × Csv) :=
  folders.filterMap (fun p =>
    match p.2, parse_date p.1 with
    | some csv, some d => some (dateKey d, csv)
    | _, _ => Option.none)

/-- Tail of get_latest_balance_history_value once the latest file is
loaded and account filtering is done: sort by Date when that column
exists, require the value column, drop missing values and return the
last one (ConfigError when none remain). -/
def lastColumnValue (csv : Csv) (column : String) : Except PyError (Option ℚ) :=
  let rows := if "Date" ∈ csv.columns then List.insertionSort dateRowLe csv.rows else csv.rows
  if column ∈ csv.columns then
    match (rows.filterMap (fun r => numCell (getCell r column))).getLast? with
    | some v => .ok (some v)
    | Option.none => .error (.configError "No values found for column")
  else .error (.configError "Missing value column")

/-- Account filtering of get_latest_balance_history_value (`if account:`
is truthiness, so None and the empty string skip the filter): ConfigError
when the account column is absent or no row matches. -/
def processCsv (csv : Csv) (column : String) (account : Option String)
    (account_column : String) : Except PyError (Option ℚ) :=
  match account with
  | some a =>
    if a ≠ "" then
      if account_column ∈ csv.columns then
        match csv.rows.filter (fun r => getCell r account_column = Cell.str a) with
        | [] => .error (.configError "No rows found for account")
        | r :: rs => lastColumnValue ⟨csv.columns, r :: rs⟩ column
      else .error (.configError "Missing account column")
    else lastColumnValue csv column
  | Option.none => lastColumnValue csv column

/-- Model of get_latest_balance_history_value.  The output tree is a list
of (folder name, optional parsed CSV found at folder/filename).  No
candidate at all returns None; a truthy run_date must parse (ConfigError
otherwise) and keeps only candidates strictly before it, returning None
when none remain; otherwise the latest candidate's file is processed. -/
def get_latest_balance_history_value (folders : List (String × Option Csv))
    (run_date : Option String) (column : String) (account : Option String)
    (account_column : String) : Except PyError (Option ℚ) :=
  match balanceCandidates folders with
  | [] => .ok Option.none
  | c :: cs =>
    let filtered : Except PyError (List (Nat × Csv)) :=
      match run_date with
      | some rd =>
        if rd ≠ "" then
          match parse_date rd with
          | some rdd => .ok ((c :: cs).filter (fun x => x.1 < dateKey rdd))
          | Option.none => .error (.configError "run_date must be in %Y-%m-%d format")
        else .ok (c :: cs)
      | Option.none => .ok (c :: cs)
    match filtered with
    | .error e => .error e
    | .ok [] => .ok Option.none
    | .ok (d :: ds) => processCsv (maxByKey d ds).2 column account account_column

/-- Concrete balance-history CSV used as an older output folder in the
examples below. -/
def csvA : Csv := ⟨["Date", "Balance", "Original Balance", "Account"],
  [[("Date", Cell.str "2024-01-01"), ("Balance", Cell.num 50),
    ("Original Balance", Cell.num 40), ("Account", Cell.str "Revolut Savings")]]⟩

/-- Concrete balance-history CSV used as the latest output folder in the
examples below: two rows for the requested account (the later one with a
missing Balance) and one row for another account. -/
def csvB : Csv := ⟨["Date", "Balance", "Original Balance", "Account"],
  [[("Date", Cell.str "2024-02-01"), ("Balance", Cell.num 220),
    ("Original Balance", Cell.num 110), ("Account", Cell.str "Revolut Savings")],
   [("Date", Cell.str "2024-02-02"), ("Balance", Cell.na),
    ("Original Balance", Cell.num 105), ("Account", Cell.str "Revolut Savings")],
   [("Date", Cell.str "2024-02-02"), ("Balance", Cell.num 1),
    ("Original Balance", Cell.num 7), ("Account", Cell.str "Other")]]⟩

/-! Supporting lemmas. -/

theorem maxByKey_mem {α : Type} (b : Nat × α) (l : List (Nat × α)) :
    maxByKey b l ∈ b :: l := by
  induction l generalizing b with
  | nil => simp [maxByKey]
  | cons x xs ih =>
    have h := ih (if b.1 < x.1 then x else b)
    rw [List.mem_cons] at h
    show maxByKey (if b.1 < x.1 then x else b) xs ∈ b :: x :: xs
    rcases h with h | h
    · rw [h]
      by_cases hc : b.1 < x.1 <;> simp [hc]
    · simp [h]

theorem maxByKey_le {α : Type} (b : Nat × α) (l : List (Nat × α)) :
    ∀ x ∈ b :: l, x.1 ≤ (maxByKey b l).1 := by
  induction l generalizing b with
  | nil =>
    intro x hx
    rw [List.mem_cons] at hx
    rcases hx with rfl | h
    · exact le_refl _
    · cases h
  | cons y ys ih =>
    intro x hx
    show x.1 ≤ (maxByKey (if b.1 < y.1 then y else b) ys).1
    have hb : b.1 ≤ (if b.1 < y.1 then y else b).1 := by
      by_cases hc : b.1 < y.1 <;> simp [hc]
      exact le_of_lt hc
    have hy : y.1 ≤ (if b.1 < y.1 then y else b).1 := by
      by_cases hc : b.1 < y.1 <;> simp [hc]
      exact le_of_not_lt hc
    rw [List.mem_cons] at hx
    rcases hx with rfl | hx
    · exact le_trans hb (ih _ _ (List.mem_cons_self _ _))
    · rw [List.mem_cons] at hx
      rcases hx with rfl | hx
      · exact le_trans hy (ih _ _ (List.mem_cons_self _ _))
      · exact ih _ x (List.mem_cons_of_mem _ hx)

theorem runningBalances_map_fst (s : ℚ) (l : List (Nat × ℚ)) :
    (runningBalances s l).map (fun p => p.1) = l.map (fun p => p.1) := by
  induction l generalizing s with
  | nil => rfl
  | cons x xs ih =>
    cases x
    simp [runningBalances, ih]

theorem runningBalances_map_snd (s : ℚ) (l : List (Nat × ℚ)) :
    (runningBalances s l).map (fun p => p.2) = cumsumFrom s (l.map (fun p => p.2)) := by
  induction l generalizing s with
  | nil => rfl
  | cons x xs ih =>
    cases x
    simp [runningBalances, cumsumFrom, ih]

theorem cumsumFrom_length (s : ℚ) (l : List ℚ) : (cumsumFrom s l).length = l.length := by
  induction l generalizing s with
  | nil => rfl
  | cons x xs ih => simp [cumsumFrom, ih]

theorem dailyTotals_map_fst (f : Txn → ℚ) (l : List Txn) :
    (dailyTotals f l).map (fun p => p.1) = sortedUniqueDates l := by
  simp [dailyTotals, Function.comp_def]

theorem dailyTotals_map_snd (f : Txn → ℚ) (l : List Txn) :
    (dailyTotals f l).map (fun p => p.2) = (sortedUniqueDates l).map (sumAt f l) := by
  simp [dailyTotals]

theorem sortedUniqueDates_sorted (l : List Txn) :
    (sortedUniqueDates l).Sorted (fun a b : Nat => a ≤ b) :=
  List.sorted_insertionSort _ _

theorem sortedUniqueDates_nodup (l : List Txn) : (sortedUniqueDates l).Nodup :=
  (List.perm_insertionSort _ _).symm.nodup (List.nodup_dedup _)

theorem sortedUniqueDates_sorted_lt (l : List Txn) :
    (sortedUniqueDates l).Sorted (fun a b : Nat => a < b) :=
  List.Sorted.lt_of_le (sortedUniqueDates_sorted l) (sortedUniqueDates_nodup l)

theorem sortedUniqueDates_ne_nil {l : List Txn} (h : l ≠ []) : sortedUniqueDates l ≠ [] := by
  intro hcon
  apply h
  have hperm := List.perm_insertionSort (fun a b : Nat => a ≤ b) (l.map (fun t => t.date)).dedup
  rw [sortedUniqueDates] at hcon
  rw [hcon] at hperm
  have hded : (l.map (fun t => t.date)).dedup = [] := hperm.symm.eq_nil
  rw [List.dedup_eq_nil] at hded
  exact List.map_eq_nil_iff.1 hded

theorem accountRows_usd (a : AccountConfig) (txns : List Txn)
    (rl : Nat → String → Option ℚ) (t : String) (h : a.currency = t) :
    accountRows a txns rl t =
      (runningBalances a.starting_balance
        (dailyTotals (fun x => x.amount) (txns.filter (fun x => x.account = a.name)))).map
        (fun p => ⟨p.1, some p.2, p.2, a.name⟩) := by
  simp [accountRows, h]

theorem accountRows_foreign (a : AccountConfig) (txns : List Txn)
    (rl : Nat → String → Option ℚ) (t : String) (h : ¬ a.currency = t) :
    accountRows a txns rl t =
      (runningBalances a.starting_balance
        (dailyTotals (fun x => x.originalAmount) (txns.filter (fun x => x.account = a.name)))).map
        (fun p => ⟨p.1, (rl p.1 a.currency).map (fun r => round2 (p.2 * r)), p.2, a.name⟩) := by
  simp [accountRows, h]

theorem accountRows_map_date (a : AccountConfig) (txns : List Txn)
    (rl : Nat → String → Option ℚ) (t : String) :
    (accountRows a txns rl t).map (fun r => r.date) =
      sortedUniqueDates (txns.filter (fun x => x.account = a.name)) := by
  by_cases h : a.currency = t
  · rw [accountRows_usd a txns rl t h, List.map_map]
    have : (runningBalances a.starting_balance
        (dailyTotals (fun x => x.amount) (txns.filter (fun x => x.account = a.name)))).map
          (fun p : Nat × ℚ => p.1) = _ := runningBalances_map_fst _ _
    simpa [Function.comp] using this.trans (dailyTotals_map_fst _ _)
  · rw [accountRows_foreign a txns rl t h, List.map_map]
    have : (runningBalances a.starting_balance
        (dailyTotals (fun x => x.originalAmount) (txns.filter (fun x => x.account = a.name)))).map
          (fun p : Nat × ℚ => p.1) = _ := runningBalances_map_fst _ _
    simpa [Function.comp] using this.trans (dailyTotals_map_fst _ _)

theorem accountRows_account (a : AccountConfig) (txns : List Txn)
    (rl : Nat → String → Option ℚ) (t : String) :
    ∀ r ∈ accountRows a txns rl t, r.account = a.name := by
  intro r hr
  by_cases h : a.currency = t
  · rw [accountRows_usd a txns rl t h] at hr
    obtain ⟨p, hp, rfl⟩ := List.mem_map.1 hr
    rfl
  · rw [accountRows_foreign a txns rl t h] at hr
    obtain ⟨p, hp, rfl⟩ := List.mem_map.1 hr
    rfl

theorem accountRows_sorted (a : AccountConfig) (txns : List Txn)
    (rl : Nat → String → Option ℚ) (t : String) :
    List.Sorted rowLe (accountRows a txns rl t) := by
  have hdates : ((accountRows a txns rl t).map (fun r => r.date)).Sorted
      (fun a b : Nat => a ≤ b) := by
    rw [accountRows_map_date]
    exact sortedUniqueDates_sorted _
  have hp : (accountRows a txns rl t).Pairwise (fun r s => r.date ≤ s.date) :=
    (List.pairwise_map).1 hdates
  refine hp.imp_of_mem ?_
  intro r s hr hs hle
  exact Or.inr ⟨(accountRows_account a txns rl t r hr).trans
    (accountRows_account a txns rl t s hs).symm, hle⟩

theorem build_balance_history_single (a : AccountConfig) (txns : List Txn)
    (rl : Nat → String → Option ℚ) (t : String)
    (hne : txns.filter (fun x => x.account = a.name) ≠ []) :
    build_balance_history txns [a] rl t = .ok (accountRows a txns rl t) := by
  simp only [build_balance_history, List.filterMap]
  rw [if_neg hne]
  simp only [List.filterMap_nil]
  rw [if_neg (by simp : ¬ ([accountRows a txns rl t] = []))]
  rw [List.flatten, List.flatten, List.append_nil]
  rw [List.Sorted.insertionSort_eq (accountRows_sorted a txns rl t)]

theorem accountRows_ne_nil (a : AccountConfig) (txns : List Txn)
    (rl : Nat → String → Option ℚ) (t : String)
    (hne : txns.filter (fun x => x.account = a.name) ≠ []) :
    accountRows a txns rl t ≠ [] := by
  have hd : (accountRows a txns rl t).map (fun r => r.date) ≠ [] := by
    rw [accountRows_map_date]
    exact sortedUniqueDates_ne_nil hne
  intro hcon
  rw [hcon] at hd
  exact hd rfl

/-- C2: for an account whose currency is the reporting currency "USD"
with at least one matching transaction, the balance rows group that
account's transactions by date, sum the Amount column per day, run in
ascending date order, and carry the running cumulative sum seeded with
the starting balance; Balance and Original Balance are identical and the
rate lookup is never consulted; build_balance_history returns exactly
these rows for a single-account run.  In particular daily amounts
[10.0, -5.0] with starting balance 100.0 give both columns
[110.0, 105.0]. -/
theorem usd_account_balance_series (a : AccountConfig) (txns : List Txn)
    (rl rl' : Nat → String → Option ℚ)
    (hcur : a.currency = "USD")
    (hne : txns.filter (fun x => x.account = a.name) ≠ []) :
    accountRows a txns rl "USD" ≠ [] ∧
    (accountRows a txns rl "USD").map (fun r => r.date) =
      sortedUniqueDates (txns.filter (fun x => x.account = a.name)) ∧
    ((accountRows a txns rl "USD").map (fun r => r.date)).Sorted (fun d e : Nat => d < e) ∧
    (accountRows a txns rl "USD").map (fun r => r.originalBalance) =
      cumsumFrom a.starting_balance
        ((sortedUniqueDates (txns.filter (fun x => x.account = a.name))).map
          (sumAt (fun x => x.amount) (txns.filter (fun x => x.account = a.name)))) ∧
    (∀ r ∈ accountRows a txns rl "USD", r.balance = some r.originalBalance) ∧
    accountRows a txns rl "USD" = accountRows a txns rl' "USD" ∧
    build_balance_history txns [a] rl "USD" = .ok (accountRows a txns rl "USD") ∧
    (accountRows ⟨"Revolut Checking", "USD", 100⟩
      [⟨"Revolut Checking", 1, 10, 10⟩, ⟨"Revolut Checking", 2, -5, -5⟩]
      rl "USD").map (fun r => (r.balance, r.originalBalance)) =
      [(some 110, 110), (some 105, 105)] := by
  refine ⟨accountRows_ne_nil a txns rl "USD" hne, accountRows_map_date a txns rl "USD",
    ?_, ?_, ?_, ?_, build_balance_history_single a txns rl "USD" hne, ?_⟩
  · rw [accountRows_map_date]
    exact sortedUniqueDates_sorted_lt _
  · rw [accountRows_usd a txns rl _ hcur, List.map_map]
    have h1 := runningBalances_map_snd a.starting_balance
      (dailyTotals (fun x => x.amount) (txns.filter (fun x => x.account = a.name)))
    rw [dailyTotals_map_snd] at h1
    simpa [Function.comp_def] using h1
  · intro r hr
    rw [accountRows_usd a txns rl _ hcur] at hr
    obtain ⟨p, hp, rfl⟩ := List.mem_map.1 hr
    rfl
  · rw [accountRows_usd a txns rl _ hcur, accountRows_usd a txns rl' _ hcur]
  · rw [accountRows_usd ⟨"Revolut Checking", "USD", 100⟩ _ rl "USD" rfl]
    norm_num [dailyTotals, sortedUniqueDates, sumAt, runningBalances,
      List.insertionSort, List.orderedInsert, List.dedup]

/-- C1: for an account whose currency differs from the reporting
currency "USD" with at least one matching transaction, the balance rows
group by date, sum the Original Amount column per day, run in ascending
date order, and carry the running cumulative sum of original-currency
amounts seeded with the starting balance; each day's Balance is the
day's cumulative Original Balance (not the daily delta) converted with
rate_lookup(date, currency) and rounded to two decimals, and a day whose
lookup returns no rate keeps its row with Original Balance populated and
Balance missing.  In particular daily original amounts [10.0, -5.0],
starting balance 100.0 and day rates 2.0 then 1.0 give Original Balance
[110.0, 105.0] and Balance [220.0, 105.0]. -/
theorem foreign_account_balance_series (a : AccountConfig) (txns : List Txn)
    (rl : Nat → String → Option ℚ)
    (hcur : a.currency ≠ "USD")
    (hne : txns.filter (fun x => x.account = a.name) ≠ []) :
    accountRows a txns rl "USD" ≠ [] ∧
    (accountRows a txns rl "USD").map (fun r => r.date) =
      sortedUniqueDates (txns.filter (fun x => x.account = a.name)) ∧
    ((accountRows a txns rl "USD").map (fun r => r.date)).Sorted (fun d e : Nat => d < e) ∧
    (accountRows a txns rl "USD").map (fun r => r.originalBalance) =
      cumsumFrom a.starting_balance
        ((sortedUniqueDates (txns.filter (fun x => x.account = a.name))).map
          (sumAt (fun x => x.originalAmount) (txns.filter (fun x => x.account = a.name)))) ∧
    (∀ r ∈ accountRows a txns rl "USD",
      r.balance = (rl r.date a.currency).map (fun rate => round2 (r.originalBalance * rate))) ∧
    (∀ r ∈ accountRows a txns rl "USD",
      rl r.date a.currency = Option.none → r.balance = Option.none) ∧
    build_balance_history txns [a] rl "USD" = .ok (accountRows a txns rl "USD") ∧
    (accountRows ⟨"Revolut Savings", "GBP", 100⟩
      [⟨"Revolut Savings", 1, 0, 10⟩, ⟨"Revolut Savings", 2, 0, -5⟩]
      (fun d _ => if d = 1 then some 2 else if d = 2 then some 1 else Option.none) "USD").map
      (fun r => (r.balance, r.originalBalance)) = [(some 220, 110), (some 105, 105)] := by
  refine ⟨accountRows_ne_nil a txns rl "USD" hne, accountRows_map_date a txns rl "USD",
    ?_, ?_, ?_, ?_, build_balance_history_single a txns rl "USD" hne, ?_⟩
  · rw [accountRows_map_date]
    exact sortedUniqueDates_sorted_lt _
  · rw [accountRows_foreign a txns rl _ hcur, List.map_map]
    have h1 := runningBalances_map_snd a.starting_balance
      (dailyTotals (fun x => x.originalAmount) (txns.filter (fun x => x.account = a.name)))
    rw [dailyTotals_map_snd] at h1
    simpa [Function.comp_def] using h1
  · intro r hr
    rw [accountRows_foreign a txns rl _ hcur] at hr
    obtain ⟨p, hp, rfl⟩ := List.mem_map.1 hr
    rfl
  · intro r hr hnone
    rw [accountRows_foreign a txns rl _ hcur] at hr
    obtain ⟨p, hp, rfl⟩ := List.mem_map.1 hr
    simp only at hnone ⊢
    rw [hnone]
    rfl
  · rw [accountRows_foreign ⟨"Revolut Savings", "GBP", 100⟩ _ _ "USD" (by decide)]
    norm_num [dailyTotals, sortedUniqueDates, sumAt, runningBalances,
      List.insertionSort, List.orderedInsert, List.dedup, round2, roundHalfEven]

/-- Witness for C2 at a concrete reporting-currency account: daily
amounts [10, -5], starting balance 100, balances [110, 105]. -/
theorem usd_account_balance_series_witness :
    (([⟨"Revolut Checking", 1, 10, 10⟩, ⟨"Revolut Checking", 2, -5, -5⟩] : List Txn).filter
      (fun x => x.account = "Revolut Checking") ≠ []) ∧
    (accountRows ⟨"Revolut Checking", "USD", 100⟩
      [⟨"Revolut Checking", 1, 10, 10⟩, ⟨"Revolut Checking", 2, -5, -5⟩]
      (fun _ _ => Option.none) "USD").map (fun r => (r.balance, r.originalBalance)) =
      [(some 110, 110), (some 105, 105)] :=
  ⟨by decide, (usd_account_balance_series ⟨"Revolut Checking", "USD", 100⟩
      [⟨"Revolut Checking", 1, 10, 10⟩, ⟨"Revolut Checking", 2, -5, -5⟩]
      (fun _ _ => Option.none) (fun _ _ => Option.none) rfl (by decide)).2.2.2.2.2.2.2⟩

/-- Witness for C1 at a concrete foreign-currency account: daily original
amounts [10, -5], starting balance 100, rates 2.0 then 1.0, Original
Balance [110, 105] and Balance [220, 105]. -/
theorem foreign_account_balance_series_witness :
    (("GBP" : String) ≠ "USD") ∧
    (([⟨"Revolut Savings", 1, 0, 10⟩, ⟨"Revolut Savings", 2, 0, -5⟩] : List Txn).filter
      (fun x => x.account = "Revolut Savings") ≠ []) ∧
    (accountRows ⟨"Revolut Savings", "GBP", 100⟩
      [⟨"Revolut Savings", 1, 0, 10⟩, ⟨"Revolut Savings", 2, 0, -5⟩]
      (fun d _ => if d = 1 then some 2 else if d = 2 then some 1 else Option.none) "USD").map
      (fun r => (r.balance, r.originalBalance)) = [(some 220, 110), (some 105, 105)] :=
  ⟨by decide, by decide, (foreign_account_balance_series ⟨"Revolut Savings", "GBP", 100⟩
      [⟨"Revolut Savings", 1, 0, 10⟩, ⟨"Revolut Savings", 2, 0, -5⟩]
      (fun d _ => if d = 1 then some 2 else if d = 2 then some 1 else Option.none)
      (by decide) (by decide)).2.2.2.2.2.2.2⟩

/-- C5: the two normalizer row loops treat a missing same-day rate
asymmetrically: if any checking row's (date, currency) has no rate the
whole checking conversion fails with ValueError and emits no row, while
the savings conversion simply drops rate-less rows and converts all the
others. -/
theorem missing_rate_policy (rates : List ((String × String) × ℚ))
    (crows : List CheckingRow) (srows : List SavingsRow)
    (h : ∃ r ∈ crows, List.lookup (r.date, r.currency) rates = Option.none) :
    convert_checking_rows rates crows = .error (.valueError "No exchange rate found") ∧
    convert_savings_rows rates srows =
      (srows.filter (fun r => (List.lookup (r.date, "GBP") rates).isSome)).map
        (fun r => monarch_row r.date r.description "Revolut Savings"
          (round2 (r.amount * ((List.lookup (r.date, "GBP") rates).getD 0))) r.amount) := by
  constructor
  · obtain ⟨r, hr, hnone⟩ := h
    induction crows with
    | nil => cases hr
    | cons c cs ih =>
      rw [List.mem_cons] at hr
      rcases hr with rfl | hr
      · simp [convert_checking_rows, hnone]
      · cases hlk : List.lookup (c.date, c.currency) rates with
        | none => simp [convert_checking_rows, hlk]
        | some v =>
          simp only [convert_checking_rows, hlk]
          rw [ih hr]
          rfl
  · induction srows with
    | nil => rfl
    | cons s ss ih =>
      cases hlk : List.lookup (s.date, "GBP") rates with
      | none => simp [convert_savings_rows, hlk, ih, List.filter_cons]
      | some v => simp [convert_savings_rows, hlk, ih, List.filter_cons]

/-- Witness for C5: one checking row whose (date, currency) has no rate
makes the checking conversion fail, while the savings conversion skips
its rate-less row and emits the covered one. -/
theorem missing_rate_policy_witness :
    (∃ r ∈ ([⟨"2024-01-02", "coffee", 3, "EUR"⟩] : List CheckingRow),
      List.lookup (r.date, r.currency) [(("2024-01-01", "GBP"), (2 : ℚ))] = Option.none) ∧
    convert_checking_rows [(("2024-01-01", "GBP"), (2 : ℚ))]
      [⟨"2024-01-02", "coffee", 3, "EUR"⟩] =
      .error (.valueError "No exchange rate found") ∧
    convert_savings_rows [(("2024-01-01", "GBP"), (2 : ℚ))]
      [⟨"2024-01-01", "in", 5⟩, ⟨"2024-01-02", "out", 7⟩] =
      (([⟨"2024-01-01", "in", 5⟩, ⟨"2024-01-02", "out", 7⟩] : List SavingsRow).filter
        (fun r => (List.lookup (r.date, "GBP") [(("2024-01-01", "GBP"), (2 : ℚ))]).isSome)).map
        (fun r => monarch_row r.date r.description "Revolut Savings"
          (round2 (r.amount * ((List.lookup (r.date, "GBP")
            [(("2024-01-01", "GBP"), (2 : ℚ))]).getD 0))) r.amount) := by
  have h : ∃ r ∈ ([⟨"2024-01-02", "coffee", 3, "EUR"⟩] : List CheckingRow),
      List.lookup (r.date, r.currency) [(("2024-01-01", "GBP"), (2 : ℚ))] = Option.none := by
    refine ⟨⟨"2024-01-02", "coffee", 3, "EUR"⟩, List.mem_cons_self _ _, ?_⟩
    decide
  exact ⟨h, missing_rate_policy [(("2024-01-01", "GBP"), (2 : ℚ))]
    [⟨"2024-01-02", "coffee", 3, "EUR"⟩]
    [⟨"2024-01-01", "in", 5⟩, ⟨"2024-01-02", "out", 7⟩] h⟩

/-- C7: both rate-table builders fail with RuntimeError whenever the
declared API source currency differs from the reporting currency,
producing no rate entries. -/
theorem rate_source_guard (quotes : List (String × List (String × ℚ)))
    (source : String) (currencies : List String) (currency target : String)
    (h : source ≠ target) :
    build_usd_rates quotes source currencies target =
      .error (.runtimeError "Unsupported API source currency; expected target") ∧
    build_usd_rate_series quotes source currency target =
      .error (.runtimeError "Unsupported API source currency; expected target") := by
  exact ⟨by simp [build_usd_rates, h], by simp [build_usd_rate_series, h]⟩

/-- Witness for C7 with a non-USD source currency. -/
theorem rate_source_guard_witness :
    (("EUR" : String) ≠ "USD") ∧
    build_usd_rates [("2024-01-01", [("USDGBP", (2 : ℚ))])] "EUR" ["GBP"] "USD" =
      .error (.runtimeError "Unsupported API source currency; expected target") ∧
    build_usd_rate_series [("2024-01-01", [("USDGBP", (2 : ℚ))])] "EUR" "GBP" "USD" =
      .error (.runtimeError "Unsupported API source currency; expected target") :=
  ⟨by decide, rate_source_guard [("2024-01-01", [("USDGBP", (2 : ℚ))])] "EUR" ["GBP"] "GBP" "USD"
    (by decide)⟩

/-- C8: the money parser maps None, float NaN and strings that are empty
after stripping the symbol, commas and whitespace to 0.0, parses any
other stripped decimal text to its value, and the savings amount is the
parsed credit column minus the parsed debit column. -/
theorem money_amount_parsing (s sym : String) (q : ℚ) (vi vo : PyValue) (x y : ℚ) :
    parse_money_amount PyValue.none sym = .ok 0 ∧
    parse_money_amount PyValue.nanFloat sym = .ok 0 ∧
    (stripChars (removeOccs [','] (removeOccs sym.toList s.toList)) = [] →
      parse_money_amount (.str s) sym = .ok 0) ∧
    (parseDecimal (stripChars (removeOccs [','] (removeOccs sym.toList s.toList))) = some q →
      parse_money_amount (.str s) sym = .ok q) ∧
    (parse_money_amount vi "£" = .ok x → parse_money_amount vo "£" = .ok y →
      savings_amount vi vo = .ok (x - y)) := by
  refine ⟨rfl, rfl, ?_, ?_, ?_⟩
  · intro h
    simp only [String.toList] at h
    simp [parse_money_amount, h]
  · intro h
    have hne : stripChars (removeOccs [','] (removeOccs sym.toList s.toList)) ≠ [] := by
      intro hc
      rw [hc] at h
      rw [show parseDecimal ([] : List Char) = Option.none from rfl] at h
      cases h
    simp only [String.toList] at h hne
    simp [parse_money_amount, hne, h]
  · intro h1 h2
    simp only [savings_amount]
    rw [h1, h2]
    rfl

/-- Witness for C8: "£1,234.56" parses to 1234.56 and the savings amount
of credit "£10" and debit "£2.50" is their difference. -/
theorem money_amount_parsing_witness :
    parseDecimal (stripChars (removeOccs [','] (removeOccs "£".toList "£1,234.56".toList))) =
      some (((1234 : ℕ) : ℚ) + ((56 : ℕ) : ℚ) / 10 ^ 2) ∧
    parse_money_amount (.str "£1,234.56") "£" =
      .ok (((1234 : ℕ) : ℚ) + ((56 : ℕ) : ℚ) / 10 ^ 2) ∧
    savings_amount (.str "£10") (.str "£2.50") =
      .ok (((10 : ℕ) : ℚ) - (((2 : ℕ) : ℚ) + ((50 : ℕ) : ℚ) / 10 ^ 2)) :=
  ⟨rfl,
   (money_amount_parsing "£1,234.56" "£" (((1234 : ℕ) : ℚ) + ((56 : ℕ) : ℚ) / 10 ^ 2)
     (.str "£10") (.str "£2.50") 0 0).2.2.2.1 rfl,
   (money_amount_parsing "£1,234.56" "£" 0 (.str "£10") (.str "£2.50")
     ((10 : ℕ) : ℚ) (((2 : ℕ) : ℚ) + ((50 : ℕ) : ℚ) / 10 ^ 2)).2.2.2.2 rfl rfl⟩

theorem lookup_cons_eq {α β : Type} [BEq α] [LawfulBEq α] (k : α) (v : β)
    (l : List (α × β)) : List.lookup k ((k, v) :: l) = some v := by
  rw [List.lookup_cons]
  simp

theorem lookup_cons_ne {α β : Type} [BEq α] [LawfulBEq α] (k k' : α) (v : β)
    (l : List (α × β)) (h : k ≠ k') :
    List.lookup k ((k', v) :: l) = List.lookup k l := by
  rw [List.lookup_cons]
  rw [beq_false_of_ne h]

theorem lookup_rateEntriesFor (source target : String) (normalized : List String)
    (d c : String) (dq : List (String × ℚ)) (hnd : normalized.Nodup) :
    List.lookup (d, c) (rateEntriesFor source target normalized d dq) =
      if c ∈ normalized then rateValueFor source target dq c else Option.none := by
  induction normalized with
  | nil => simp [rateEntriesFor]
  | cons h0 tl ih =>
    rw [List.nodup_cons] at hnd
    obtain ⟨hnot, htl⟩ := hnd
    simp only [rateEntriesFor] at ih ⊢
    rw [List.filterMap_cons]
    cases hv : rateValueFor source target dq h0 with
    | none =>
      simp only [Option.map_none']
      by_cases hc : c = h0
      · subst hc
        rw [ih htl, if_neg hnot, if_pos (List.mem_cons_self _ _), hv]
      · rw [ih htl]
        by_cases hm : c ∈ tl
        · rw [if_pos hm, if_pos (List.mem_cons_of_mem _ hm)]
        · rw [if_neg hm, if_neg (by simp [hc, hm])]
    | some v =>
      simp only [Option.map_some']
      by_cases hc : c = h0
      · subst hc
        rw [lookup_cons_eq, if_pos (List.mem_cons_self _ _), hv]
      · rw [lookup_cons_ne _ _ _ _ (by simp [hc]), ih htl]
        by_cases hm : c ∈ tl
        · rw [if_pos hm, if_pos (List.mem_cons_of_mem _ hm)]
        · rw [if_neg hm, if_neg (by simp [hc, hm])]

theorem lookup_rateEntriesFor_other_date (source target : String)
    (normalized : List String) (d d' c : String) (dq : List (String × ℚ))
    (hne : d ≠ d') :
    List.lookup (d, c) (rateEntriesFor source target normalized d' dq) = Option.none := by
  induction normalized with
  | nil => rfl
  | cons h0 tl ih =>
    simp only [rateEntriesFor] at ih ⊢
    rw [List.filterMap_cons]
    cases hv : rateValueFor source target dq h0 with
    | none =>
      simp only [Option.map_none']
      exact ih
    | some v =>
      simp only [Option.map_some']
      rw [lookup_cons_ne _ _ _ _ (by simp [hne]), ih]

theorem lookup_rates_flatMap_none (qs : List (String × List (String × ℚ)))
    (source target : String) (normalized : List String) (d c : String)
    (h : ∀ p ∈ qs, d ≠ p.1) :
    List.lookup (d, c)
        (qs.flatMap (fun p => rateEntriesFor source target normalized p.1 p.2)) =
      Option.none := by
  induction qs with
  | nil => rfl
  | cons r rs ih =>
    rw [List.flatMap_cons, List.lookup_append]
    rw [lookup_rateEntriesFor_other_date source target normalized d r.1 c r.2
      (h r (List.mem_cons_self _ _))]
    rw [Option.none_or]
    exact ih (fun p hp => h p (List.mem_cons_of_mem _ hp))

theorem lookup_rates_flatMap (quotes : List (String × List (String × ℚ)))
    (source target : String) (normalized : List String) (d c : String)
    (dq : List (String × ℚ))
    (hnd : (quotes.map Prod.fst).Nodup) (hmem : (d, dq) ∈ quotes) :
    List.lookup (d, c)
        (quotes.flatMap (fun p => rateEntriesFor source target normalized p.1 p.2)) =
      List.lookup (d, c) (rateEntriesFor source target normalized d dq) := by
  induction quotes with
  | nil => cases hmem
  | cons q0 qs ih =>
    rw [List.map_cons, List.nodup_cons] at hnd
    obtain ⟨hq0, hqs⟩ := hnd
    rw [List.mem_cons] at hmem
    rw [List.flatMap_cons, List.lookup_append]
    rcases hmem with rfl | hmem
    · rw [lookup_rates_flatMap_none qs source target normalized d c
        (by intro p hp hcon
            apply hq0
            show d ∈ List.map Prod.fst qs
            rw [hcon]
            exact List.mem_map_of_mem Prod.fst hp)]
      cases List.lookup (d, c) (rateEntriesFor source target normalized d dq) <;> rfl
    · have hne : d ≠ q0.1 := by
        intro hcon
        apply hq0
        rw [← hcon]
        exact List.mem_map_of_mem Prod.fst hmem
      rw [lookup_rateEntriesFor_other_date source target normalized d q0.1 c q0.2 hne,
        Option.none_or]
      exact ih hqs hmem

theorem mem_normalizeCurrencies (c : String) (currencies : List String) (hc : c ≠ "") :
    c ∈ normalizeCurrencies currencies ↔ c ∈ currencies := by
  unfold normalizeCurrencies
  rw [List.mem_insertionSort, List.mem_dedup, List.mem_filter]
  simp [hc]

theorem normalizeCurrencies_nodup (currencies : List String) :
    (normalizeCurrencies currencies).Nodup :=
  (List.perm_insertionSort _ _).symm.nodup (List.nodup_dedup _)

theorem lookup_rate_series_none (qs : List (String × List (String × ℚ)))
    (source target c d : String) (h : ∀ p ∈ qs, d ≠ p.1) :
    List.lookup d (qs.filterMap
      (fun p => (rateValueFor source target p.2 c).map (fun v => (p.1, v)))) =
      Option.none := by
  induction qs with
  | nil => rfl
  | cons r rs ih =>
    rw [List.filterMap_cons]
    cases hv : rateValueFor source target r.2 c with
    | none =>
      simp only [Option.map_none']
      exact ih (fun p hp => h p (List.mem_cons_of_mem _ hp))
    | some v =>
      simp only [Option.map_some']
      rw [lookup_cons_ne _ _ _ _ (h r (List.mem_cons_self _ _))]
      exact ih (fun p hp => h p (List.mem_cons_of_mem _ hp))

theorem lookup_rate_series (quotes : List (String × List (String × ℚ)))
    (source target c d : String) (dq : List (String × ℚ))
    (hnd : (quotes.map Prod.fst).Nodup) (hmem : (d, dq) ∈ quotes) :
    List.lookup d (quotes.filterMap
      (fun p => (rateValueFor source target p.2 c).map (fun v => (p.1, v)))) =
      rateValueFor source target dq c := by
  induction quotes with
  | nil => cases hmem
  | cons q0 qs ih =>
    rw [List.map_cons, List.nodup_cons] at hnd
    obtain ⟨hq0, hqs⟩ := hnd
    rw [List.mem_cons] at hmem
    rw [List.filterMap_cons]
    rcases hmem with rfl | hmem
    · have hrest : ∀ p ∈ qs, d ≠ p.1 := by
        intro p hp hcon
        apply hq0
        show d ∈ List.map Prod.fst qs
        rw [hcon]
        exact List.mem_map_of_mem Prod.fst hp
      cases hv : rateValueFor source target (d, dq).2 c with
      | none =>
        simp only [Option.map_none']
        rw [lookup_rate_series_none qs source target c d hrest]
      | some v =>
        simp only [Option.map_some']
        rw [lookup_cons_eq]
    · have hne : d ≠ q0.1 := by
        intro hcon
        apply hq0
        rw [← hcon]
        exact List.mem_map_of_mem Prod.fst hmem
      cases hv : rateValueFor source target q0.2 c with
      | none =>
        simp only [Option.map_none']
        exact ih hqs hmem
      | some v =>
        simp only [Option.map_some']
        rw [lookup_cons_ne _ _ _ _ hne]
        exact ih hqs hmem

/-- C3: with source currency "USD", the rate map and the rate series give
multiplier exactly 1.0 for the reporting currency "USD" on every date
present in the quotes; for any other requested currency the produced
entry for a (date, currency) is 1/quote["USD" ++ currency] when that
quote is present and non-zero, and no entry exists at all when the quote
key is absent or its value is zero. -/
theorem rate_builder_entries (quotes : List (String × List (String × ℚ)))
    (currencies : List String) (rates : List ((String × String) × ℚ))
    (series : List (String × ℚ)) (c d : String) (dq : List (String × ℚ))
    (hnd : (quotes.map Prod.fst).Nodup) (hmem : (d, dq) ∈ quotes) :
    (build_usd_rates quotes "USD" currencies "USD" = .ok rates → "USD" ∈ currencies →
      List.lookup (d, "USD") rates = some 1) ∧
    (build_usd_rates quotes "USD" currencies "USD" = .ok rates →
      c ∈ currencies → c ≠ "USD" → c ≠ "" →
      List.lookup (d, c) rates =
        (match List.lookup ("USD" ++ c) dq with
         | some r => if r ≠ 0 then some (1 / r) else Option.none
         | Option.none => Option.none)) ∧
    (build_usd_rate_series quotes "USD" "USD" "USD" = .ok series →
      List.lookup d series = some 1) ∧
    (build_usd_rate_series quotes "USD" c "USD" = .ok series → c ≠ "USD" →
      List.lookup d series =
        (match List.lookup ("USD" ++ c) dq with
         | some r => if r ≠ 0 then some (1 / r) else Option.none
         | Option.none => Option.none)) := by
  refine ⟨?_, ?_, ?_, ?_⟩
  · intro hok husd
    have hr : rates = quotes.flatMap
        (fun p => rateEntriesFor "USD" "USD" (normalizeCurrencies currencies) p.1 p.2) := by
      simpa [build_usd_rates] using hok.symm
    rw [hr, lookup_rates_flatMap quotes "USD" "USD" _ d "USD" dq hnd hmem,
      lookup_rateEntriesFor _ _ _ _ _ _ (normalizeCurrencies_nodup currencies),
      if_pos ((mem_normalizeCurrencies "USD" currencies (by decide)).2 husd)]
    rfl
  · intro hok hcmem hcusd hcne
    have hr : rates = quotes.flatMap
        (fun p => rateEntriesFor "USD" "USD" (normalizeCurrencies currencies) p.1 p.2) := by
      simpa [build_usd_rates] using hok.symm
    rw [hr, lookup_rates_flatMap quotes "USD" "USD" _ d c dq hnd hmem,
      lookup_rateEntriesFor _ _ _ _ _ _ (normalizeCurrencies_nodup currencies),
      if_pos ((mem_normalizeCurrencies c currencies hcne).2 hcmem)]
    rw [rateValueFor, if_neg hcusd]
  · intro hok
    have hr : series = quotes.filterMap
        (fun p => (rateValueFor "USD" "USD" p.2 "USD").map (fun v => (p.1, v))) := by
      simpa [build_usd_rate_series] using hok.symm
    rw [hr, lookup_rate_series quotes "USD" "USD" "USD" d dq hnd hmem]
    rfl
  · intro hok hcusd
    have hr : series = quotes.filterMap
        (fun p => (rateValueFor "USD" "USD" p.2 c).map (fun v => (p.1, v))) := by
      simpa [build_usd_rate_series] using hok.symm
    rw [hr, lookup_rate_series quotes "USD" "USD" c d dq hnd hmem]
    rw [rateValueFor, if_neg hcusd]

/-- Witness for C3 on one day of quotes with a non-zero GBP quote, a zero
EUR quote and USD requested: USD maps to 1.0, GBP to the inverted quote,
EUR to no entry at all. -/
theorem rate_builder_entries_witness :
    build_usd_rates [("2024-01-01", [("USDGBP", (2 : ℚ)), ("USDEUR", 0)])] "USD"
      ["GBP", "USD", "EUR"] "USD" =
      .ok [(("2024-01-01", "GBP"), 1 / 2), (("2024-01-01", "USD"), 1)] ∧
    List.lookup ("2024-01-01", "USD")
      [(("2024-01-01", "GBP"), (1 : ℚ) / 2), (("2024-01-01", "USD"), 1)] = some 1 ∧
    List.lookup ("2024-01-01", "GBP")
      [(("2024-01-01", "GBP"), (1 : ℚ) / 2), (("2024-01-01", "USD"), 1)] =
      (match List.lookup ("USD" ++ "GBP") [("USDGBP", (2 : ℚ)), ("USDEUR", 0)] with
       | some r => if r ≠ 0 then some (1 / r) else Option.none
       | Option.none => Option.none) ∧
    List.lookup ("2024-01-01", "EUR")
      [(("2024-01-01", "GBP"), (1 : ℚ) / 2), (("2024-01-01", "USD"), 1)] =
      (match List.lookup ("USD" ++ "EUR") [("USDGBP", (2 : ℚ)), ("USDEUR", 0)] with
       | some r => if r ≠ 0 then some (1 / r) else Option.none
       | Option.none => Option.none) ∧
    build_usd_rate_series [("2024-01-01", [("USDGBP", (2 : ℚ)), ("USDEUR", 0)])] "USD"
      "USD" "USD" = .ok [("2024-01-01", 1)] ∧
    List.lookup "2024-01-01" [("2024-01-01", (1 : ℚ))] = some 1 ∧
    build_usd_rate_series [("2024-01-01", [("USDGBP", (2 : ℚ)), ("USDEUR", 0)])] "USD"
      "GBP" "USD" = .ok [("2024-01-01", 1 / 2)] ∧
    List.lookup "2024-01-01" [("2024-01-01", (1 : ℚ) / 2)] =
      (match List.lookup ("USD" ++ "GBP") [("USDGBP", (2 : ℚ)), ("USDEUR", 0)] with
       | some r => if r ≠ 0 then some (1 / r) else Option.none
       | Option.none => Option.none) :=
  ⟨rfl,
   (rate_builder_entries [("2024-01-01", [("USDGBP", (2 : ℚ)), ("USDEUR", 0)])]
     ["GBP", "USD", "EUR"]
     [(("2024-01-01", "GBP"), (1 : ℚ) / 2), (("2024-01-01", "USD"), 1)]
     [("2024-01-01", (1 : ℚ))] "GBP" "2024-01-01" [("USDGBP", (2 : ℚ)), ("USDEUR", 0)]
     (by decide) (List.mem_cons_self _ _)).1 rfl (by decide),
   (rate_builder_entries [("2024-01-01", [("USDGBP", (2 : ℚ)), ("USDEUR", 0)])]
     ["GBP", "USD", "EUR"]
     [(("2024-01-01", "GBP"), (1 : ℚ) / 2), (("2024-01-01", "USD"), 1)]
     [("2024-01-01", (1 : ℚ))] "GBP" "2024-01-01" [("USDGBP", (2 : ℚ)), ("USDEUR", 0)]
     (by decide) (List.mem_cons_self _ _)).2.1 rfl (by decide) (by decide) (by decide),
   (rate_builder_entries [("2024-01-01", [("USDGBP", (2 : ℚ)), ("USDEUR", 0)])]
     ["GBP", "USD", "EUR"]
     [(("2024-01-01", "GBP"), (1 : ℚ) / 2), (("2024-01-01", "USD"), 1)]
     [("2024-01-01", (1 : ℚ))] "EUR" "2024-01-01" [("USDGBP", (2 : ℚ)), ("USDEUR", 0)]
     (by decide) (List.mem_cons_self _ _)).2.1 rfl (by decide) (by decide) (by decide),
   rfl,
   (rate_builder_entries [("2024-01-01", [("USDGBP", (2 : ℚ)), ("USDEUR", 0)])]
     ["GBP", "USD", "EUR"]
     [(("2024-01-01", "GBP"), (1 : ℚ) / 2), (("2024-01-01", "USD"), 1)]
     [("2024-01-01", (1 : ℚ))] "GBP" "2024-01-01" [("USDGBP", (2 : ℚ)), ("USDEUR", 0)]
     (by decide) (List.mem_cons_self _ _)).2.2.1 rfl,
   rfl,
   (rate_builder_entries [("2024-01-01", [("USDGBP", (2 : ℚ)), ("USDEUR", 0)])]
     ["GBP", "USD", "EUR"]
     [(("2024-01-01", "GBP"), (1 : ℚ) / 2), (("2024-01-01", "USD"), 1)]
     [("2024-01-01", (1 : ℚ) / 2)] "GBP" "2024-01-01" [("USDGBP", (2 : ℚ)), ("USDEUR", 0)]
     (by decide) (List.mem_cons_self _ _)).2.2.2 rfl (by decide)⟩

/-- C6: a valid YYYY-MM-DD override is returned verbatim regardless of
the input folders; a malformed non-empty override fails with ConfigError;
with no override the name of the chronologically latest dated
sub-directory is returned, failing with FileNotFoundError when the root
is missing or no valid dated sub-directory exists. -/
theorem run_date_resolution (o : String) (dd : Nat × Nat × Nat)
    (rootExists : Bool) (children : List (String × Bool)) :
    (parse_date o = some dd → get_run_date (some o) rootExists children = .ok o) ∧
    (o ≠ "" → parse_date o = Option.none →
      get_run_date (some o) rootExists children =
        .error (.configError "RUN_DATE must be in %Y-%m-%d format")) ∧
    get_run_date Option.none rootExists children =
      get_latest_dated_folder rootExists children ∧
    (rootExists = false →
      get_latest_dated_folder rootExists children = .error (.notFound "Missing directory")) ∧
    (dirCandidates children = [] →
      get_latest_dated_folder true children = .error (.notFound "No dated folders found")) ∧
    (∀ name, get_latest_dated_folder true children = .ok name →
      ∃ dn, (name, true) ∈ children ∧ parse_date name = some dn ∧
        ∀ n2 d2, (n2, true) ∈ children → parse_date n2 = some d2 →
          dateKey d2 ≤ dateKey dn) := by
  refine ⟨?_, ?_, rfl, ?_, ?_, ?_⟩
  · intro h
    have ho : o ≠ "" := by
      intro hc
      rw [hc] at h
      rw [show parse_date "" = Option.none from rfl] at h
      cases h
    simp [get_run_date, ho, h]
  · intro ho hn
    simp [get_run_date, ho, hn]
  · intro h
    rw [h]
    rfl
  · intro h
    simp [get_latest_dated_folder, h]
  · intro name h
    rw [get_latest_dated_folder, if_pos rfl] at h
    cases hdc : dirCandidates children with
    | nil =>
      rw [hdc] at h
      cases h
    | cons c cs =>
      rw [hdc] at h
      have hname : (maxByKey c cs).2 = name := by
        injection h
      have hmem := maxByKey_mem c cs
      rw [← hdc] at hmem
      obtain ⟨⟨n0, b0⟩, hch, hf⟩ := List.mem_filterMap.1 hmem
      cases b0 with
      | false => cases hf
      | true =>
        rw [if_pos rfl] at hf
        cases hp : parse_date n0 with
        | none =>
          rw [hp] at hf
          cases hf
        | some dn0 =>
          rw [hp, Option.map_some'] at hf
          injection hf with hf
          refine ⟨dn0, ?_, ?_, ?_⟩
          · rw [← hname, ← hf]
            exact hch
          · rw [← hname, ← hf]
            exact hp
          · intro n2 d2 hch2 hp2
            have hin : (dateKey d2, n2) ∈ dirCandidates children :=
              List.mem_filterMap.2 ⟨(n2, true), hch2, by rw [if_pos rfl, hp2, Option.map_some']⟩
            rw [hdc] at hin
            have hle := maxByKey_le c cs (dateKey d2, n2) hin
            rw [← hf] at hle
            exact hle

/-- Witness for C6: a valid override is returned verbatim, a malformed
one fails with ConfigError, and without an override the latest dated
directory (skipping non-dated names and non-directories) is chosen. -/
theorem run_date_resolution_witness :
    parse_date "2024-03-05" = some (2024, 3, 5) ∧
    get_run_date (some "2024-03-05") true
      [("2024-01-01", true), ("2024-02-01", true)] = .ok "2024-03-05" ∧
    (("2024-13-05" : String) ≠ "") ∧
    parse_date "2024-13-05" = Option.none ∧
    get_run_date (some "2024-13-05") true [("2024-01-01", true), ("2024-02-01", true)] =
      .error (.configError "RUN_DATE must be in %Y-%m-%d format") ∧
    get_latest_dated_folder false [("2024-01-01", true)] =
      .error (.notFound "Missing directory") ∧
    dirCandidates [("notes", true)] = [] ∧
    get_latest_dated_folder true [("notes", true)] =
      .error (.notFound "No dated folders found") ∧
    get_latest_dated_folder true
      [("2024-01-01", true), ("2024-02-01", true), ("notes", true), ("2024-03-05", false)] =
      .ok "2024-02-01" ∧
    (∃ dn, ("2024-02-01", true) ∈
        [("2024-01-01", true), ("2024-02-01", true), ("notes", true), ("2024-03-05", false)] ∧
      parse_date "2024-02-01" = some dn ∧
      ∀ n2 d2, (n2, true) ∈
          [("2024-01-01", true), ("2024-02-01", true), ("notes", true), ("2024-03-05", false)] →
        parse_date n2 = some d2 → dateKey d2 ≤ dateKey dn) :=
  ⟨by decide,
   (run_date_resolution "2024-03-05" (2024, 3, 5) true
     [("2024-01-01", true), ("2024-02-01", true)]).1 (by decide),
   by decide,
   by decide,
   (run_date_resolution "2024-13-05" (2024, 3, 5) true
     [("2024-01-01", true), ("2024-02-01", true)]).2.1 (by decide) (by decide),
   (run_date_resolution "2024-13-05" (2024, 3, 5) false [("2024-01-01", true)]).2.2.2.1 rfl,
   by decide,
   (run_date_resolution "2024-13-05" (2024, 3, 5) true [("notes", true)]).2.2.2.2.1 (by decide),
   rfl,
   (run_date_resolution "2024-13-05" (2024, 3, 5) true
     [("2024-01-01", true), ("2024-02-01", true), ("notes", true), ("2024-03-05", false)]
     ).2.2.2.2.2 "2024-02-01" rfl⟩

/-- C9: an override set to the empty string is falsy in Python, so
get_run_date does not fail but falls back to scanning the input root
exactly as if the variable were unset. -/
theorem empty_override_falls_back (rootExists : Bool) (children : List (String × Bool)) :
    get_run_date (some "") rootExists children =
      get_run_date Option.none rootExists children := rfl

/-- C4: the prior-balance locator returns no value when no dated folder
holds the file at all; with a run date it keeps only candidates strictly
before it and processes the latest remaining one; processing fails with
ConfigError when a requested account's column is absent or no row
matches, and otherwise sorts by Date when that column exists and returns
the last non-missing value of the requested column. -/
theorem prior_balance_locator (folders : List (String × Option Csv))
    (run_date : Option String) (rd : String) (rdd : Nat × Nat × Nat)
    (column : String) (account_column : String) (a : String) (account : Option String)
    (csv : Csv) (v : ℚ) :
    (balanceCandidates folders = [] →
      get_latest_balance_history_value folders run_date column account account_column =
        .ok Option.none) ∧
    (∀ c cs, balanceCandidates folders = c :: cs → parse_date rd = some rdd →
      ∀ f fs, (c :: cs).filter (fun x => x.1 < dateKey rdd) = f :: fs →
        get_latest_balance_history_value folders (some rd) column account account_column =
          processCsv (maxByKey f fs).2 column account account_column ∧
        maxByKey f fs ∈ f :: fs ∧
        (∀ x ∈ f :: fs, x.1 ≤ (maxByKey f fs).1) ∧
        (∀ x ∈ f :: fs, x.1 < dateKey rdd)) ∧
    (∀ c cs, balanceCandidates folders = c :: cs →
      get_latest_balance_history_value folders Option.none column account account_column =
        processCsv (maxByKey c cs).2 column account account_column) ∧
    (a ≠ "" → account_column ∉ csv.columns →
      processCsv csv column (some a) account_column =
        .error (.configError "Missing account column")) ∧
    (a ≠ "" → account_column ∈ csv.columns →
      csv.rows.filter (fun r => getCell r account_column = Cell.str a) = [] →
      processCsv csv column (some a) account_column =
        .error (.configError "No rows found for account")) ∧
    (∀ r rs, a ≠ "" → account_column ∈ csv.columns →
      csv.rows.filter (fun r => getCell r account_column = Cell.str a) = r :: rs →
      processCsv csv column (some a) account_column =
        lastColumnValue ⟨csv.columns, r :: rs⟩ column) ∧
    (column ∈ csv.columns →
      ((if "Date" ∈ csv.columns then List.insertionSort dateRowLe csv.rows
        else csv.rows).filterMap (fun r => numCell (getCell r column))).getLast? = some v →
      lastColumnValue csv column = .ok (some v)) := by
  refine ⟨?_, ?_, ?_, ?_, ?_, ?_, ?_⟩
  · intro hc
    simp [get_latest_balance_history_value, hc]
  · intro c cs hc hp f fs hf
    have hrd : rd ≠ "" := by
      intro hcon
      rw [hcon] at hp
      rw [show parse_date "" = Option.none from rfl] at hp
      cases hp
    refine ⟨?_, maxByKey_mem f fs, maxByKey_le f fs, ?_⟩
    · simp [get_latest_balance_history_value, hc, hrd, hp, hf]
    · intro x hx
      rw [← hf] at hx
      have := List.of_mem_filter hx
      simpa using this
  · intro c cs hc
    simp [get_latest_balance_history_value, hc]
  · intro ha hnc
    simp [processCsv, ha, hnc]
  · intro ha hcol hfil
    simp [processCsv, ha, hcol, hfil]
  · intro r rs ha hcol hfil
    simp [processCsv, ha, hcol, hfil]
  · intro hcol hlast
    simp [lastColumnValue, hcol, hlast]

/-- C10: when candidate files do exist but none of their folder dates is
strictly before the run date, the locator also returns None rather than
an error. -/
theorem no_prior_balance_when_none_earlier (folders : List (String × Option Csv))
    (rd : String) (rdd : Nat × Nat × Nat) (column : String) (account : Option String)
    (account_column : String) (c : Nat × Csv) (cs : List (Nat × Csv))
    (hc : balanceCandidates folders = c :: cs)
    (hp : parse_date rd = some rdd)
    (hall : ∀ x ∈ balanceCandidates folders, ¬ (x.1 < dateKey rdd)) :
    get_latest_balance_history_value folders (some rd) column account account_column =
      .ok Option.none := by
  have hrd : rd ≠ "" := by
    intro hcon
    rw [hcon] at hp
    rw [show parse_date "" = Option.none from rfl] at hp
    cases hp
  have hfil : (c :: cs).filter (fun x => x.1 < dateKey rdd) = [] := by
    rw [List.filter_eq_nil_iff]
    intro x hx
    rw [← hc] at hx
    simpa using hall x hx
  simp [get_latest_balance_history_value, hc, hrd, hp, hfil]

/-- Witness for C4: two dated output folders plus a non-dated folder and
a folder without the file; a run date after both picks the newer folder,
and its last non-missing Original Balance for the requested account is
returned; a request for an absent account and for a missing account
column fail with ConfigError. -/
theorem prior_balance_locator_witness :
    balanceCandidates [("2024-01-01", some csvA), ("2024-02-01", some csvB),
      ("garbage", some csvA), ("2024-04-01", Option.none)] =
      [(dateKey (2024, 1, 1), csvA), (dateKey (2024, 2, 1), csvB)] ∧
    parse_date "2024-03-01" = some (2024, 3, 1) ∧
    ([(dateKey (2024, 1, 1), csvA), (dateKey (2024, 2, 1), csvB)].filter
      (fun x => x.1 < dateKey (2024, 3, 1))) =
      [(dateKey (2024, 1, 1), csvA), (dateKey (2024, 2, 1), csvB)] ∧
    get_latest_balance_history_value
      [("2024-01-01", some csvA), ("2024-02-01", some csvB),
       ("garbage", some csvA), ("2024-04-01", Option.none)]
      (some "2024-03-01") "Original Balance" (some "Revolut Savings") "Account" =
      processCsv (maxByKey (dateKey (2024, 1, 1), csvA)
        [(dateKey (2024, 2, 1), csvB)]).2 "Original Balance"
        (some "Revolut Savings") "Account" ∧
    get_latest_balance_history_value
      [("2024-01-01", some csvA), ("2024-02-01", some csvB),
       ("garbage", some csvA), ("2024-04-01", Option.none)]
      (some "2024-03-01") "Original Balance" (some "Revolut Savings") "Account" =
      .ok (some 105) ∧
    get_latest_balance_history_value ([] : List (String × Option Csv))
      (some "2024-03-01") "Original Balance" (some "Revolut Savings") "Account" =
      .ok Option.none ∧
    processCsv csvB "Original Balance" (some "Missing") "Account" =
      .error (.configError "No rows found for account") ∧
    processCsv csvB "Original Balance" (some "Revolut Savings") "Acct" =
      .error (.configError "Missing account column") :=
  ⟨by decide, by decide, by decide,
   ((prior_balance_locator [("2024-01-01", some csvA), ("2024-02-01", some csvB),
       ("garbage", some csvA), ("2024-04-01", Option.none)]
       (some "2024-03-01") "2024-03-01" (2024, 3, 1) "Original Balance" "Account"
       "Missing" (some "Revolut Savings") csvB 105).2.1
     (dateKey (2024, 1, 1), csvA) [(dateKey (2024, 2, 1), csvB)] (by decide) (by decide)
     (dateKey (2024, 1, 1), csvA) [(dateKey (2024, 2, 1), csvB)] (by decide)).1,
   rfl,
   (prior_balance_locator ([] : List (String × Option Csv))
       (some "2024-03-01") "2024-03-01" (2024, 3, 1) "Original Balance" "Account"
       "Missing" (some "Revolut Savings") csvB 105).1 rfl,
   (prior_balance_locator [("2024-01-01", some csvA), ("2024-02-01", some csvB),
       ("garbage", some csvA), ("2024-04-01", Option.none)]
       (some "2024-03-01") "2024-03-01" (2024, 3, 1) "Original Balance" "Account"
       "Missing" (some "Revolut Savings") csvB 105).2.2.2.2.1 (by decide) (by decide)
     (by decide),
   (prior_balance_locator [("2024-01-01", some csvA), ("2024-02-01", some csvB),
       ("garbage", some csvA), ("2024-04-01", Option.none)]
       (some "2024-03-01") "2024-03-01" (2024, 3, 1) "Original Balance" "Acct"
       "Revolut Savings" (some "Revolut Savings") csvB 105).2.2.2.1 (by decide)
     (by decide)⟩

/-- Witness for C10: both output folders are dated at or after the run
date, so the locator returns None. -/
theorem no_prior_balance_when_none_earlier_witness :
    balanceCandidates [("2024-01-01", some csvA), ("2024-02-01", some csvB)] =
      [(dateKey (2024, 1, 1), csvA), (dateKey (2024, 2, 1), csvB)] ∧
    parse_date "2024-01-01" = some (2024, 1, 1) ∧
    (∀ x ∈ balanceCandidates [("2024-01-01", some csvA), ("2024-02-01", some csvB)],
      ¬ (x.1 < dateKey (2024, 1, 1))) ∧
    get_latest_balance_history_value
      [("2024-01-01", some csvA), ("2024-02-01", some csvB)]
      (some "2024-01-01") "Original Balance" (some "Revolut Savings") "Account" =
      .ok Option.none :=
  ⟨by decide, by decide, by decide,
   no_prior_balance_when_none_earlier
     [("2024-01-01", some csvA), ("2024-02-01", some csvB)]
     "2024-01-01" (2024, 1, 1) "Original Balance" (some "Revolut Savings") "Account"
     (dateKey (2024, 1, 1), csvA) [(dateKey (2024, 2, 1), csvB)]
     (by decide) (by decide) (by decide)⟩
